import Mathlib

/-!
Verification of the `sequencing_scraper` repository (files `scraper.py`,
`sequencing_scraper.py`, `scheduler.py`) against its natural-language
specification.  The Python code is shallowly embedded: file contents are
`List Char` (the decoded text of a file), paths are strings, and the
filesystem is passed explicitly as a function.  Fallible operations
(Python code that can raise) return `Except Unit`.
-/

set_option autoImplicit false

namespace Scraper

/-- Filesystem paths: Python `pathlib.Path` objects are modelled by their
path string. -/
abbrev FsPath := String

/-- Identity of an underlying file (device+inode pair in `os.stat` terms),
abstracted as a natural number. -/
abbrev FileId := Nat

/-- Result of `os.stat` on a path: `none` when the path does not exist on
the filesystem (Python raises `FileNotFoundError`/`OSError`), otherwise the
identity of the underlying file.  Two path strings naming the same file
(via symlinks or hardlinks) map to the same `FileId`. -/
abbrev StatFn := FsPath → Option FileId

/-- Embedding of `left.samefile(right)` (`os.path.samefile`): stats both
paths and compares the underlying file identities; raises when either path
does not exist. -/
def samefile (stat : StatFn) (left right : FsPath) : Except Unit Bool :=
  match stat left, stat right with
  | some a, some b => Except.ok (a = b)
  | _, _ => Except.error ()

/-- Embedding of the inner `for right in indexed_sheets: ... else:` loop of
`filter_samplesheets` (both `scraper.py` lines 130-137 and
`sequencing_scraper.py` lines 145-152): returns `true` exactly when no
indexed path is the same file as `left` (the `for`/`else` fires), `false`
when some indexed path matches (`break`), and an error when a `samefile`
comparison raises before a match is found. -/
def no_indexed_match (stat : StatFn) (left : FsPath) : List FsPath → Except Unit Bool
  | [] => Except.ok true
  | right :: rest =>
    match samefile stat left right with
    | Except.error e => Except.error e
    | Except.ok true => Except.ok false
    | Except.ok false => no_indexed_match stat left rest

/-- Embedding of `filter_samplesheets(current_sheets, indexed_sheets)`
(`sequencing_scraper.py` lines 138-153; `scraper.py` lines 124-138 is the
same loop with `current_sheets = self.defined_sample_sheets +
self.globbed_sample_sheets`): keeps, in input order, each candidate for
which the inner comparison loop exhausts `indexed_sheets` without a
`samefile` match; an exception raised by any comparison aborts the whole
call. -/
def filter_samplesheets (stat : StatFn) (current indexed : List FsPath) :
    Except Unit (List FsPath) :=
  match current with
  | [] => Except.ok []
  | left :: rest =>
    match no_indexed_match stat left indexed with
    | Except.error e => Except.error e
    | Except.ok keep =>
      match filter_samplesheets stat rest indexed with
      | Except.error e => Except.error e
      | Except.ok files => Except.ok (if keep then left :: files else files)

/-- When the candidate and every indexed path exist on the filesystem, the
inner loop reduces to a pure scan of the indexed list for a matching file
identity. -/
theorem no_indexed_match_eq_all (stat : StatFn) (left : FsPath)
    (indexed : List FsPath) (hl : (stat left).isSome)
    (hi : ∀ p ∈ indexed, (stat p).isSome) :
    no_indexed_match stat left indexed
      = Except.ok (indexed.all fun r => !(stat left == stat r)) := by
  induction indexed with
  | nil => rfl
  | cons right rest ih =>
    obtain ⟨a, ha⟩ := Option.isSome_iff_exists.mp hl
    obtain ⟨b, hb⟩ := Option.isSome_iff_exists.mp (hi right (by simp))
    have hrest : no_indexed_match stat left rest
        = Except.ok (rest.all fun r => !(stat left == stat r)) :=
      ih fun p hp => hi p (by simp [hp])
    by_cases hab : a = b
    · subst hab
      simp [no_indexed_match, samefile, ha, hb, List.all_cons]
    · simp [no_indexed_match, samefile, ha, hb, hab, hrest, List.all_cons,
        Option.some_inj]

/-- C1: Dedup Filter soundness and completeness.  Whenever every candidate
and every indexed path exists on the filesystem, `filter_samplesheets`
succeeds and returns exactly those candidates whose resolved file identity
(`stat`, the symlink/hardlink-resolving identity used by `samefile`)
matches no indexed path, in input order: the result is literally the
order-preserving filter of the candidate list, no returned sheet is
file-identical to an indexed path, and every candidate not file-identical
to an indexed path is returned. -/
theorem filter_samplesheets_sound_complete (stat : StatFn)
    (current indexed : List FsPath)
    (hc : ∀ p ∈ current, (stat p).isSome)
    (hi : ∀ p ∈ indexed, (stat p).isSome) :
    filter_samplesheets stat current indexed
        = Except.ok (current.filter fun l => indexed.all fun r => !(stat l == stat r))
      ∧ ∀ l, l ∈ (current.filter fun l => indexed.all fun r => !(stat l == stat r))
          ↔ (l ∈ current ∧ ∀ r ∈ indexed, stat l ≠ stat r) := by
  constructor
  · induction current with
    | nil => rfl
    | cons left rest ih =>
      have hleft : (stat left).isSome := hc left (by simp)
      have hrest : filter_samplesheets stat rest indexed
          = Except.ok (rest.filter fun l => indexed.all fun r => !(stat l == stat r)) :=
        ih fun p hp => hc p (by simp [hp])
      rw [filter_samplesheets, no_indexed_match_eq_all stat left indexed hleft hi, hrest]
      by_cases hkeep : (indexed.all fun r => !(stat left == stat r)) = true
      · simp [hkeep, List.filter_cons]
      · simp [List.filter_cons, hkeep]
  · intro l
    simp [List.mem_filter, List.all_eq_true]

/-- Concrete filesystem for the C1 witness: paths `a` and `c` are two names
for the same underlying file (identity 1), `b` is a different file, and
every other path does not exist. -/
def statC1 : StatFn := fun p =>
  if p = "a" then some 1 else if p = "b" then some 2 else if p = "c" then some 1 else none

/-- Witness for C1 at a concrete input: with candidates `[a, b]` and index
`[c]`, where `a` and `c` are the same file, the filter keeps exactly `b`. -/
theorem filter_samplesheets_sound_complete_witness :
    filter_samplesheets statC1 ["a", "b"] ["c"] = Except.ok ["b"] :=
  (filter_samplesheets_sound_complete statC1 ["a", "b"] ["c"]
      (by decide) (by decide)).1.trans (congrArg Except.ok (by decide))

/-- When a candidate exists, differs in file identity from every indexed
path before some stale entry, and that stale entry does not exist on the
filesystem, the inner comparison loop reaches the stale entry and the
`samefile` call raises. -/
theorem no_indexed_match_error (stat : StatFn) (left : FsPath) (il : FileId)
    (pre post : List FsPath)
    (hl : stat left = some il)
    (hpre : ∀ r ∈ pre, ∃ ir, stat r = some ir ∧ ir ≠ il)
    (bad : FsPath) (hbad : stat bad = none) :
    no_indexed_match stat left (pre ++ bad :: post) = Except.error () := by
  induction pre with
  | nil => simp [no_indexed_match, samefile, hl, hbad]
  | cons r rs ih =>
    obtain ⟨ir, hir, hne⟩ := hpre r (by simp)
    have hrest := ih fun p hp => hpre p (by simp [hp])
    have hneq : il ≠ ir := fun h => hne h.symm
    simp [no_indexed_match, samefile, hl, hir, hneq, hrest]

/-- If any candidate's inner comparison loop raises, the whole
`filter_samplesheets` call raises: the exception propagates out of the
function no matter how the other candidates compare. -/
theorem filter_samplesheets_error_of_mem (stat : StatFn)
    (current indexed : List FsPath) (l : FsPath) (hl : l ∈ current)
    (herr : no_indexed_match stat l indexed = Except.error ()) :
    filter_samplesheets stat current indexed = Except.error () := by
  induction current with
  | nil => cases hl
  | cons left rest ih =>
    rw [filter_samplesheets]
    rcases List.mem_cons.mp hl with hEq | hMem
    · subst hEq
      rw [herr]
    · cases hhead : no_indexed_match stat left indexed with
      | error e => rfl
      | ok keep => rw [ih hMem]

/-- C10: the dedup filter is not total over stale index entries.  If the
index splits as `pre ++ bad :: post` where `bad` does not exist on the
filesystem, and some candidate exists and is not file-identical to any
entry of `pre`, then `filter_samplesheets` raises (returns an error)
instead of treating the nonexistent indexed path as a non-match, aborting
the whole filtering step. -/
theorem filter_samplesheets_stale_index_error (stat : StatFn)
    (current pre post : List FsPath) (bad l : FsPath) (il : FileId)
    (hl : l ∈ current)
    (hstat : stat l = some il)
    (hpre : ∀ r ∈ pre, ∃ ir, stat r = some ir ∧ ir ≠ il)
    (hbad : stat bad = none) :
    filter_samplesheets stat current (pre ++ bad :: post) = Except.error () :=
  filter_samplesheets_error_of_mem stat current (pre ++ bad :: post) l hl
    (no_indexed_match_error stat l il pre post hstat hpre bad hbad)

/-- Concrete filesystem for the C10 witness: `a` and `b` exist with
distinct identities, `gone` does not exist. -/
def statC10 : StatFn := fun p =>
  if p = "a" then some 1 else if p = "b" then some 2 else none

/-- Witness for C10 at a concrete input: with candidate list `[a]` and
index `[b, gone]` where `gone` was deleted from the filesystem, the whole
filter aborts with an error. -/
theorem filter_samplesheets_stale_index_error_witness :
    filter_samplesheets statC10 ["a"] (["b"] ++ "gone" :: []) = Except.error () :=
  filter_samplesheets_stale_index_error statC10 ["a"] ["b"] [] "gone" "a" 1
    (by decide) (by decide) (by decide) (by decide)

/-- File contents are decoded text, modelled as the sequence of characters. -/
abbrev FileContent := List Char

/-- A filesystem mapping each path to the content of the file stored there,
or `none` when no file exists at that path (reading raises
`FileNotFoundError`). -/
abbrev FileSystem := FsPath → Option FileContent

/-- Embedding of Python `str.split(sep)` for a one-character separator:
always returns a nonempty list of (possibly empty) chunks; splitting the
empty string yields one empty chunk. -/
def pySplit (sep : Char) : List Char → List (List Char)
  | [] => [[]]
  | c :: cs =>
    if c = sep then [] :: pySplit sep cs
    else
      match pySplit sep cs with
      | [] => [[c]]
      | chunk :: rest => (c :: chunk) :: rest

/-- Embedding of `read_index` (`scraper.py` lines 200-204 and
`sequencing_scraper.py` lines 125-129): reads the index file and turns each
line into a path; a missing index file raises `FileNotFoundError`, which is
caught and turned into the empty list, so the function never raises. -/
def read_index (fs : FileSystem) (index_filename : FsPath) : List FileContent :=
  match fs index_filename with
  | none => []
  | some content => pySplit '\n' content

/-- C9: loading the index from a missing file returns the empty sequence.
When the index file does not exist, `read_index` returns `[]`; since the
embedding is a total function (the `FileNotFoundError` is caught inside
`read_index`), no exception escapes. -/
theorem read_index_missing_file (fs : FileSystem) (index_filename : FsPath)
    (hmissing : fs index_filename = none) :
    read_index fs index_filename = [] := by
  simp [read_index, hmissing]

/-- Witness for C9 at a concrete input: the empty filesystem has no index
file, and loading it yields the empty sequence. -/
theorem read_index_missing_file_witness :
    read_index (fun _ => none) "index.txt" = [] :=
  read_index_missing_file (fun _ => none) "index.txt" rfl

/-- Canonicalisation performed by `path.resolve()`: maps a path to its
canonical absolute form.  Kept abstract, as it depends on the filesystem
(symlinks, the working directory). -/
abbrev ResolveFn := FsPath → FsPath

/-- Embedding of `update_index` (`scraper.py` lines 206-210) and
`write_index` (`sequencing_scraper.py` lines 131-135): opens the index file
in append mode and writes, for each selected path, its resolved form
followed by a newline; `content` is the index file's previous content and
the result is its content afterwards. -/
def write_index (resolve : ResolveFn) (paths : List FsPath) (content : FileContent) :
    FileContent :=
  content ++ paths.flatMap fun p => (resolve p).data ++ ['\n']

/-- The entry lines the index accumulates over a sequence of runs, where
each run contributes its selected paths in canonical (resolved) form, in
order. -/
def index_entries (resolve : ResolveFn) (runs : List (List FsPath)) : List FsPath :=
  (runs.flatMap fun sel => sel).map resolve

/-- C4: the index append is monotonic and append-only.  Folding
`write_index` over N runs leaves the previous content as an unchanged
initial segment and appends exactly one line per selected path, holding
that path's canonical resolved form, in selection order — never rewritten,
compacted, or deduplicated; consequently each canonical path occurs among
the appended entry lines exactly as many times as a path resolving to it
was selected across the runs. -/
theorem write_index_monotonic (resolve : ResolveFn) (init : FileContent)
    (runs : List (List FsPath)) :
    (List.foldl (fun content sel => write_index resolve sel content) init runs
        = init ++ (index_entries resolve runs).flatMap fun p => p.data ++ ['\n'])
      ∧ ∀ p : FsPath,
        (index_entries resolve runs).count (resolve p)
          = ((runs.flatMap fun sel => sel).countP fun q => resolve q == resolve p) := by
  constructor
  · induction runs generalizing init with
    | nil => simp [index_entries]
    | cons sel rest ih =>
      rw [List.foldl_cons, ih]
      simp [write_index, index_entries, List.flatMap_append, List.map_append,
        List.append_assoc, List.flatMap_map]
  · intro p
    rw [index_entries, List.count_eq_countP, List.countP_map]
    rfl

/-- A `datetime.date` value. -/
structure PyDate where
  year : Nat
  month : Nat
  day : Nat
deriving DecidableEq, Repr

/-- Gregorian leap-year rule used by `datetime.date`. -/
def isLeapYear (y : Nat) : Bool :=
  y % 4 = 0 && (y % 100 ≠ 0 || y % 400 = 0)

/-- Number of days in a month, as validated by the `datetime.date`
constructor. -/
def daysInMonth (y m : Nat) : Nat :=
  if m = 2 then (if isLeapYear y then 29 else 28)
  else if m = 4 ∨ m = 6 ∨ m = 9 ∨ m = 11 then 30
  else 31

/-- Embedding of the `datetime.date(year, month, day)` constructor: returns
the date when the components are in range (`MINYEAR = 1`, `MAXYEAR = 9999`)
and `none` when the constructor would raise `ValueError`. -/
def mkDate? (y m d : Nat) : Option PyDate :=
  if 1 ≤ y ∧ y ≤ 9999 ∧ 1 ≤ m ∧ m ≤ 12 ∧ 1 ≤ d ∧ d ≤ daysInMonth y m then
    some ⟨y, m, d⟩
  else none

/-- Numeric value of a digit string, most significant digit first. -/
def digitsVal (s : List Char) : Nat :=
  s.foldl (fun acc c => 10 * acc + (c.toNat - 48)) 0

/-- Embedding of Python `int(s)` on the strings this program slices out of
a folder-name prefix: succeeds on a nonempty all-digit string and raises
`ValueError` (here `none`) otherwise.  (Python's `int` also tolerates
surrounding whitespace, a sign, and digit-group underscores; none of those
can reach these call sites, whose inputs are slices of the text before the
first underscore.) -/
def pyInt? (s : List Char) : Option Nat :=
  if s ≠ [] ∧ s.all Char.isDigit then some (digitsVal s) else none

/-- Embedding of `extract_date_from_sample_id` (`scraper.py` lines 11-22,
duplicated in `sequencing_scraper.py` lines 29-40): takes the text before
the first underscore (`sample_id.split('_')[0]`), parses characters 0-1 as
the month, 2-3 as the day, and 4-end as a two-digit year added to 2000, and
returns `none` when any `int` call or the `datetime.date` constructor
raises `ValueError`. -/
def extract_date_from_sample_id (sample_id : List Char) : Option PyDate :=
  let string := sample_id.takeWhile fun c => c ≠ '_'
  match pyInt? (string.take 2), pyInt? ((string.drop 2).take 2),
      pyInt? (string.drop 4) with
  | some m, some d, some yy => mkDate? (2000 + yy) m d
  | _, _, _ => none

/-- C5 counterexample: the claim says folder `170120_xyz` yields the
DateKey 2017-01-20, reading the prefix as YYMMDD.  The code instead reads
the prefix as month 17, day 01, year 2020; month 17 makes the
`datetime.date` constructor raise, so the derivation yields no date at all
(`None`), not 2017-01-20. -/
theorem extract_date_yymmdd_counterexample :
    extract_date_from_sample_id "170120_xyz".data = none
      ∧ none ≠ some (PyDate.mk 2017 1 20) := by
  constructor
  · decide
  · decide

/-- C5 as amended: the date derivation splits on the first underscore and
interprets the leading six digits as MMDDYY — month first, then day, then
two-digit year expanded to 20YY — yielding `datetime.date(2000 + YY, MM,
DD)` when that is a valid calendar date and `None` otherwise. -/
theorem extract_date_mmddyy (m0 m1 d0 d1 y0 y1 : Char) (rest : List Char)
    (hm0 : m0.isDigit = true) (hm1 : m1.isDigit = true)
    (hd0 : d0.isDigit = true) (hd1 : d1.isDigit = true)
    (hy0 : y0.isDigit = true) (hy1 : y1.isDigit = true) :
    extract_date_from_sample_id ([m0, m1, d0, d1, y0, y1] ++ '_' :: rest)
      = mkDate? (2000 + digitsVal [y0, y1]) (digitsVal [m0, m1]) (digitsVal [d0, d1]) := by
  have hne : ∀ c : Char, c.isDigit = true → c ≠ '_' := by
    intro c hc hEq
    subst hEq
    exact absurd hc (by decide)
  rw [extract_date_from_sample_id]
  simp [pyInt?, hm0, hm1, hd0, hd1, hy0, hy1, hne m0 hm0, hne m1 hm1,
    hne d0 hd0, hne d1 hd1, hne y0 hy0, hne y1 hy1]

/-- Witness for the amended C5 at the repository's own test input: folder
prefix `032117` is month 03, day 21, year 2017, so `032117_19` yields the
date 2017-03-21 (matching `test_extract_date_from_sample_id`). -/
theorem extract_date_mmddyy_witness :
    extract_date_from_sample_id (['0', '3', '2', '1', '1', '7'] ++ '_' :: ['1', '9'])
      = some (PyDate.mk 2017 3 21) :=
  (extract_date_mmddyy '0' '3' '2' '1' '1' '7' ['1', '9']
      (by decide) (by decide) (by decide) (by decide) (by decide) (by decide)).trans
    (by decide)

deriving instance DecidableEq for Except

/-- Scan of the lines of a sheet performed by `get_container_id`
(`scraper.py` lines 42-47): for each line, `fields = line.split(',')`; at
the first line with `fields[0] == 'ContainerID'`, return `fields[1]`
(raising `IndexError`, modelled as an error, when that line has no second
field); return `None` when no line matches. -/
def container_id_scan : List (List Char) → Except Unit (Option (List Char))
  | [] => Except.ok none
  | line :: rest =>
    let fields := pySplit ',' line
    if fields.headD [] = "ContainerID".data then
      match fields with
      | _ :: second :: _ => Except.ok (some second)
      | _ => Except.error ()
    else container_id_scan rest

/-- Embedding of `get_container_id(filename)` (`scraper.py` lines 42-47):
splits the sheet's text into lines and scans them for the first
`ContainerID` row. -/
def get_container_id (content : FileContent) : Except Unit (Option (List Char)) :=
  container_id_scan (pySplit '\n' content)

/-- Embedding of `containerid_to_date(container_id)` (`scraper.py` lines
50-57): when the container id is truthy (not `None` and nonempty), formats
`20` followed by characters 0-1, a dash, characters 2-3, a dash, and
characters 4-end; a falsy container id is returned unchanged. -/
def containerid_to_date (container_id : Option (List Char)) : Option (List Char) :=
  match container_id with
  | none => none
  | some c =>
    if c = [] then some []
    else some ("20".data ++ c.take 2 ++ "-".data ++ (c.drop 2).take 2
      ++ "-".data ++ c.drop 4)

/-- Date key of a sheet: the composition of `get_container_id` and
`containerid_to_date`, exactly as `organize_samplesheets` (`scraper.py`
lines 115-117) computes it. -/
def sheet_date_key (content : FileContent) : Except Unit (Option (List Char)) :=
  match get_container_id content with
  | Except.error e => Except.error e
  | Except.ok cid => Except.ok (containerid_to_date cid)

/-- C6: ContainerID date derivation round-trip.  For every sheet whose
first `ContainerID` row carries a 6-digit YYMMDD code — `get_container_id`
returns `[y0, y1, m0, m1, d0, d1]`, all digits — the composition of
`get_container_id` and `containerid_to_date` yields the DateKey
`20YY-MM-DD`. -/
theorem sheet_date_key_round_trip (content : FileContent)
    (y0 y1 m0 m1 d0 d1 : Char)
    (hy0 : y0.isDigit = true) (hy1 : y1.isDigit = true)
    (hm0 : m0.isDigit = true) (hm1 : m1.isDigit = true)
    (hd0 : d0.isDigit = true) (hd1 : d1.isDigit = true)
    (hcid : get_container_id content = Except.ok (some [y0, y1, m0, m1, d0, d1])) :
    sheet_date_key content
      = Except.ok (some ('2' :: '0' :: y0 :: y1 :: '-' :: m0 :: m1 :: '-' :: d0 :: d1 :: [])) := by
  rw [sheet_date_key, hcid]
  simp [containerid_to_date]

/-- Sheet text used by the C6 witness: a preamble line, the line
`ContainerID,170120`, and one more line. -/
def sheetC6 : FileContent := "[Header],,\nContainerID,170120\nSample_ID,Sample_Name".data

/-- Witness for C6 at a concrete input: a sheet containing the line
`ContainerID,170120` yields the DateKey `2017-01-20`. -/
theorem sheet_date_key_round_trip_witness :
    sheet_date_key sheetC6 = Except.ok (some "2017-01-20".data) :=
  (sheet_date_key_round_trip sheetC6 '1' '7' '0' '1' '2' '0'
      (by decide) (by decide) (by decide) (by decide) (by decide) (by decide)
      (by decide)).trans (by decide)

/-- Universal-newline translation performed when Python opens a file in
text mode (the default for `Path.read_text`): every `\r\n` pair and every
lone `\r` in the stored bytes becomes `\n` in the returned string. -/
def univNewlines : FileContent → FileContent
  | [] => []
  | '\r' :: '\n' :: rest => '\n' :: univNewlines rest
  | '\r' :: rest => '\n' :: univNewlines rest
  | c :: rest => c :: univNewlines rest

/-- Embedding of `Path.read_text()` on an existing file: text-mode read
with universal-newline translation. -/
def pyReadText (stored : FileContent) : FileContent :=
  univNewlines stored

/-- Embedding of `Path.write_text(s)` on POSIX: text mode translates each
`\n` to `os.linesep`, which is `\n` on the platform this program hardcodes
(`/home/data/...` paths), so the stored content is the string itself. -/
def pyWriteText (s : FileContent) : FileContent :=
  s

/-- Embedding of the single-sheet branch of `write_organized_samplesheets`
(`scraper.py` lines 169-176): when a date's group holds exactly one sheet,
the output file receives `write_text` of the sheet's `read_text`; groups of
other sizes are handled elsewhere (`combine_samplesheets` for more than
one, nothing written for zero). -/
def write_organized_single (fs : FsPath → FileContent) (sheets : List FsPath) :
    Option FileContent :=
  match sheets with
  | [s] => some (pyWriteText (pyReadText (fs s)))
  | _ => none

/-- Filesystem for the C7 counterexample: the single sheet for its date has
Windows-style CRLF line endings (as Illumina sample sheets commonly do). -/
def fsC7 : FsPath → FileContent := fun _ => "[Header]\r\nContainerID,170120\r\n".data

/-- C7 counterexample: the claim says the written output byte-matches the
original file's content exactly.  For a source file containing `\r\n` line
endings, the text-mode read/write round trip normalizes them to `\n`, so
the output differs from the original content. -/
theorem write_organized_single_counterexample :
    write_organized_single fsC7 ["170120/SampleSheet.csv"]
        = some "[Header]\nContainerID,170120\n".data
      ∧ write_organized_single fsC7 ["170120/SampleSheet.csv"]
        ≠ some (fsC7 "170120/SampleSheet.csv") := by
  constructor
  · decide
  · decide

/-- Carriage-return-free content is a fixed point of universal-newline
translation. -/
theorem univNewlines_eq_self (content : FileContent)
    (hcr : '\r' ∉ content) :
    univNewlines content = content := by
  induction content with
  | nil => rfl
  | cons c rest ih =>
    have hc : c ≠ '\r' := fun h => hcr (h ▸ List.mem_cons_self c rest)
    have hrest : univNewlines rest = rest := ih fun h => hcr (List.mem_cons_of_mem c h)
    rw [univNewlines.eq_def]
    split <;> simp_all

/-- C7 as amended: the single-sheet copy-through preserves the text content
up to universal-newline normalization; in particular, whenever the source
sheet contains no carriage return (LF-only line endings), the written
output is byte-identical to the original content. -/
theorem write_organized_single_copy (fs : FsPath → FileContent) (s : FsPath)
    (hcr : '\r' ∉ fs s) :
    write_organized_single fs [s] = some (fs s) := by
  rw [write_organized_single, pyWriteText, pyReadText, univNewlines_eq_self (fs s) hcr]

/-- Filesystem for the C7 witness: an LF-only sheet. -/
def fsC7lf : FsPath → FileContent := fun _ => "[Header]\nContainerID,170120\n".data

/-- Witness for the amended C7 at a concrete input: an LF-only sheet is
copied through byte-identically. -/
theorem write_organized_single_copy_witness :
    write_organized_single fsC7lf ["170120/SampleSheet.csv"]
      = some (fsC7lf "170120/SampleSheet.csv") :=
  write_organized_single_copy fsC7lf "170120/SampleSheet.csv" (by decide)

/-- Keys of the organized mapping: the (possibly `None`) date string
computed by `containerid_to_date`. -/
abbrev DateKey := Option (List Char)

/-- Embedding of the dict update in `organize_samplesheets` (`scraper.py`
lines 118-121): `dates[key] = [v]` when the key is absent, else
`dates[key].append(v)`.  Python dicts preserve insertion order, so the
mapping is an association list with new keys added at the end and values
appended to an existing key's list in place. -/
def dictAppend (key : DateKey) (v : FsPath) :
    List (DateKey × List FsPath) → List (DateKey × List FsPath)
  | [] => [(key, [v])]
  | (k, vs) :: rest =>
    if k = key then (k, vs ++ [v]) :: rest else (k, vs) :: dictAppend key v rest

/-- Loop of `organize_samplesheets` (`scraper.py` lines 111-122): for each
selected sheet in order, compute its date key by reading the sheet
(`get_container_id` then `containerid_to_date`) and add the sheet to that
key's list; an exception from reading a malformed sheet propagates. -/
def organize_go (fs : FsPath → FileContent) :
    List FsPath → List (DateKey × List FsPath) →
      Except Unit (List (DateKey × List FsPath))
  | [], acc => Except.ok acc
  | p :: rest, acc =>
    match sheet_date_key (fs p) with
    | Except.error e => Except.error e
    | Except.ok key => organize_go fs rest (dictAppend key p acc)

/-- Embedding of `organize_samplesheets(selected_sheets)` (`scraper.py`
lines 111-122), starting from the empty dict. -/
def organize_samplesheets (fs : FsPath → FileContent) (selected : List FsPath) :
    Except Unit (List (DateKey × List FsPath)) :=
  organize_go fs selected []

/-- Value list stored under a key of the organized mapping, empty when the
key is absent. -/
def lookupD (key : DateKey) : List (DateKey × List FsPath) → List FsPath
  | [] => []
  | (k, vs) :: rest => if k = key then vs else lookupD key rest

/-- Sheet content shared by every path of the C8 counterexample
filesystem: all sheets carry ContainerID 170120. -/
def fsC8 : FsPath → FileContent := fun _ => "ContainerID,170120".data

/-- C8 counterexample: the claim says each value of the organized mapping
is sorted and duplicate-free.  Organizing the selection `[b, a, a]` (the
same file listed twice, as happens when the expected-location scan and the
recursive glob both find it) yields the value list `[b, a, a]` for
2017-01-20: it retains the duplicate and stays in input order, differing
from the sorted, deduplicated sequence the claim requires. -/
theorem organize_samplesheets_counterexample :
    organize_samplesheets fsC8 ["b", "a", "a"]
        = Except.ok [(some "2017-01-20".data, ["b", "a", "a"])]
      ∧ ¬ List.Nodup ["b", "a", "a"]
      ∧ (["b", "a", "a"] : List FsPath) ≠ ["a", "a", "b"] := by
  refine ⟨by decide, by decide, by decide⟩

/-- Looking a key up after a dict update: the updated key's list gains the
new element at its end, every other key's list is unchanged. -/
theorem lookupD_dictAppend (k key : DateKey) (v : FsPath)
    (m : List (DateKey × List FsPath)) :
    lookupD k (dictAppend key v m)
      = if key = k then lookupD k m ++ [v] else lookupD k m := by
  induction m with
  | nil =>
    by_cases h : key = k <;> simp [dictAppend, lookupD, h]
  | cons entry rest ih =>
    obtain ⟨k', vs⟩ := entry
    by_cases h1 : k' = key
    · subst h1
      by_cases h2 : k' = k
      · subst h2
        simp [dictAppend, lookupD]
      · simp [dictAppend, lookupD, h2]
    · by_cases h2 : k' = k
      · subst h2
        have hkey : ¬ key = k' := fun h => h1 h.symm
        simp [dictAppend, lookupD, h1, hkey]
      · simp [dictAppend, lookupD, h1, h2, ih]

/-- Invariant of the organizing loop: when every remaining sheet's date
key computes successfully (to `keyf`), the loop succeeds and each key's
final list is the accumulator's list followed by the remaining sheets with
that key, in input order. -/
theorem organize_go_lookup (fs : FsPath → FileContent) (keyf : FsPath → DateKey)
    (ps : List FsPath) (acc m : List (DateKey × List FsPath))
    (hk : ∀ p ∈ ps, sheet_date_key (fs p) = Except.ok (keyf p))
    (hm : organize_go fs ps acc = Except.ok m) :
    ∀ k, lookupD k m = lookupD k acc ++ ps.filter fun p => decide (keyf p = k) := by
  induction ps generalizing acc with
  | nil =>
    cases hm
    simp
  | cons p rest ih =>
    have hp : sheet_date_key (fs p) = Except.ok (keyf p) := hk p (by simp)
    rw [organize_go, hp] at hm
    intro k
    have hrest := ih (dictAppend (keyf p) p acc)
      (fun q hq => hk q (by simp [hq])) hm k
    rw [hrest, lookupD_dictAppend]
    by_cases hpk : keyf p = k
    · simp [List.filter_cons, hpk, List.append_assoc]
    · simp [List.filter_cons, hpk]

/-- C8 as amended: for every input list of sheet paths whose date keys all
compute, `organize_samplesheets` returns a mapping from date key to the
subsequence of input sheets having that key, in input order — duplicates
are retained (a sheet found twice appears twice) and the lists are not
re-sorted. -/
theorem organize_samplesheets_groups (fs : FsPath → FileContent)
    (keyf : FsPath → DateKey) (selected : List FsPath)
    (m : List (DateKey × List FsPath))
    (hk : ∀ p ∈ selected, sheet_date_key (fs p) = Except.ok (keyf p))
    (hm : organize_samplesheets fs selected = Except.ok m) :
    ∀ k, lookupD k m = selected.filter fun p => decide (keyf p = k) := by
  intro k
  have h := organize_go_lookup fs keyf selected [] m hk hm k
  simpa [lookupD] using h

/-- Witness for the amended C8 at a concrete input: organizing `[b, a]`
(both sheets dated 2017-01-20) stores the list `[b, a]` under that key. -/
theorem organize_samplesheets_groups_witness :
    lookupD (some "2017-01-20".data) [(some "2017-01-20".data, ["b", "a"])]
      = ["b", "a"] :=
  (organize_samplesheets_groups fsC8 (fun _ => some "2017-01-20".data) ["b", "a"]
      [(some "2017-01-20".data, ["b", "a"])] (by decide) (by decide)
      (some "2017-01-20".data)).trans (by decide)

/-- A CSV record as `csv.DictReader` yields it: the list of field values in
file order (keyed positionally by the fixed field-name list, so the value
tested by `line['Sample_ID']` is the row's first field). -/
abbrev Row := List String

/-- The fixed field-name list `self.fieldnames` (`scraper.py` line 74),
which `writer.writeheader()` emits as the single literal header row. -/
def fieldnames : Row :=
  ["Sample_ID", "Sample_Name", "Species", "Project", "NucleicAcid",
   "Sample_Well", "I7_Index_ID", "index", "I5_Index_ID", "index2"]

/-- Embedding of `get_sheet_header(reader)` (`scraper.py` lines 31-39):
accumulates rows until the first row whose first field is the literal
`Sample_ID` (that sentinel row itself is consumed but not kept). -/
def get_sheet_header : List Row → List Row
  | [] => []
  | row :: rest =>
    if row.headD "" = "Sample_ID" then [] else row :: get_sheet_header rest

/-- The rows left in the reader after `get_sheet_header` has consumed the
preamble and the sentinel header row: everything after the first row whose
first field is `Sample_ID` (`list(reader)` in `read_samplesheet`,
`scraper.py` line 159), empty when no sentinel row exists. -/
def sheet_data : List Row → List Row
  | [] => []
  | row :: rest =>
    if row.headD "" = "Sample_ID" then rest else sheet_data rest

/-- Embedding of `read_samplesheet(filename)` (`scraper.py` lines
154-160) on a sheet's parsed rows: the preamble block and the data rows. -/
def read_samplesheet (rows : List Row) : List Row × List Row :=
  (get_sheet_header rows, sheet_data rows)

/-- Embedding of `combine_samplesheets(sheets, output_filename)`
(`scraper.py` lines 141-152): the loop accumulates every sheet's data rows
into `all_lines`, but the loop variable `header` retains only the last
sheet's preamble; the output is then `header`, the literal field-name
header row, and `all_lines`.  An empty sheet list leaves `header` unbound
(Python `NameError`), modelled as `none`. -/
def combine_samplesheets (sheets : List (List Row)) : Option (List Row) :=
  match sheets.getLast? with
  | none => none
  | some lastSheet =>
    some ((read_samplesheet lastSheet).1 ++ fieldnames
      :: sheets.flatMap fun s => (read_samplesheet s).2)

/-- Sheet A of the C2 counterexample: preamble row `PA`, header sentinel,
two data rows. -/
def sheetA : List Row := [["PA"], fieldnames, ["a1"], ["a2"]]

/-- Sheet B of the C2 counterexample: preamble row `PB`, header sentinel,
three data rows. -/
def sheetB : List Row := [["PB"], fieldnames, ["b1"], ["b2"], ["b3"]]

/-- C2 counterexample: the claim says merging writes all sheets' preambles
concatenated in input order.  Merging sheet A (preamble `PA`, 2 data rows)
then sheet B (preamble `PB`, 3 data rows) writes only B's preamble — A's
preamble row `PA` appears nowhere in the output — followed by one header
row and the 5 data rows in A-then-B order. -/
theorem combine_samplesheets_counterexample :
    combine_samplesheets [sheetA, sheetB]
        = some [["PB"], fieldnames, ["a1"], ["a2"], ["b1"], ["b2"], ["b3"]]
      ∧ (["PA"] : Row) ∉ [["PB"], fieldnames, ["a1"], ["a2"], ["b1"], ["b2"], ["b3"]] := by
  refine ⟨by decide, by decide⟩

/-- Parsing a well-formed sheet recovers its preamble: rows before the
sentinel, none of which starts with `Sample_ID`. -/
theorem get_sheet_header_split (pre : List Row) (hdr : Row) (data : List Row)
    (hpre : ∀ r ∈ pre, r.headD "" ≠ "Sample_ID")
    (hhdr : hdr.headD "" = "Sample_ID") :
    get_sheet_header (pre ++ hdr :: data) = pre := by
  induction pre with
  | nil =>
    rw [List.nil_append, get_sheet_header, if_pos hhdr]
  | cons r rest ih =>
    have hr : r.headD "" ≠ "Sample_ID" := hpre r (by simp)
    have hrest := ih fun q hq => hpre q (by simp [hq])
    rw [List.cons_append, get_sheet_header, if_neg hr, hrest]

/-- Parsing a well-formed sheet recovers its data rows: everything after
the first sentinel row. -/
theorem sheet_data_split (pre : List Row) (hdr : Row) (data : List Row)
    (hpre : ∀ r ∈ pre, r.headD "" ≠ "Sample_ID")
    (hhdr : hdr.headD "" = "Sample_ID") :
    sheet_data (pre ++ hdr :: data) = data := by
  induction pre with
  | nil =>
    rw [List.nil_append, sheet_data, if_pos hhdr]
  | cons r rest ih =>
    have hr : r.headD "" ≠ "Sample_ID" := hpre r (by simp)
    have hrest := ih fun q hq => hpre q (by simp [hq])
    rw [List.cons_append, sheet_data, if_neg hr, hrest]

/-- Accumulating `all_lines` over a list of well-formed sheets collects
exactly their data-row blocks, concatenated in input order. -/
theorem flatMap_sheet_data (parts : List (List Row × Row × List Row))
    (hparts : ∀ t ∈ parts,
      (∀ r ∈ t.1, r.headD "" ≠ "Sample_ID") ∧ t.2.1.headD "" = "Sample_ID") :
    ((parts.map fun t => t.1 ++ t.2.1 :: t.2.2).flatMap fun s => (read_samplesheet s).2)
      = parts.flatMap fun t => t.2.2 := by
  induction parts with
  | nil => rfl
  | cons t rest ih =>
    obtain ⟨hp, hh⟩ := hparts t (by simp)
    rw [List.map_cons, List.flatMap_cons, List.flatMap_cons,
      ih fun q hq => hparts q (by simp [hq])]
    simp [read_samplesheet, sheet_data_split t.1 t.2.1 t.2.2 hp hh]

/-- C2 as amended: merging N sheets for one date, each a well-formed sheet
(a preamble with no `Sample_ID`-led row, a sentinel header row, then data
rows), writes the LAST sheet's preamble only — the earlier sheets'
preambles are discarded — followed by exactly one literal field-name
header row, followed by all N sheets' data rows concatenated in input
order (so 2 data rows then 3 data rows yield exactly 5, A-then-B). -/
theorem combine_samplesheets_last_preamble
    (parts : List (List Row × Row × List Row))
    (lastPre : List Row) (lastHdr : Row) (lastData : List Row)
    (hparts : ∀ t ∈ parts,
      (∀ r ∈ t.1, r.headD "" ≠ "Sample_ID") ∧ t.2.1.headD "" = "Sample_ID")
    (hlpre : ∀ r ∈ lastPre, r.headD "" ≠ "Sample_ID")
    (hlhdr : lastHdr.headD "" = "Sample_ID") :
    combine_samplesheets
        ((parts.map fun t => t.1 ++ t.2.1 :: t.2.2) ++ [lastPre ++ lastHdr :: lastData])
      = some (lastPre ++ fieldnames
          :: ((parts.flatMap fun t => t.2.2) ++ lastData)) := by
  rw [combine_samplesheets]
  simp only [List.getLast?_concat]
  rw [List.flatMap_append, flatMap_sheet_data parts hparts]
  simp [read_samplesheet, get_sheet_header_split lastPre lastHdr lastData hlpre hlhdr,
    sheet_data_split lastPre lastHdr lastData hlpre hlhdr]

/-- Witness for the amended C2 at a concrete input: merging sheet A
(preamble `PA`, 2 data rows) then sheet B (preamble `PB`, 3 data rows)
yields B's preamble, one header row, and the 5 data rows in order. -/
theorem combine_samplesheets_last_preamble_witness :
    combine_samplesheets [sheetA, sheetB]
      = some [["PB"], fieldnames, ["a1"], ["a2"], ["b1"], ["b2"], ["b3"]] :=
  (combine_samplesheets_last_preamble
      [([["PA"]], fieldnames, [["a1"], ["a2"]])]
      [["PB"]] fieldnames [["b1"], ["b2"], ["b3"]]
      (by decide) (by decide) (by decide)).trans (congrArg some (by decide))

/-- The steps of one `SampleSheetFinder.run` invocation, in the order the
straight-line body executes them. -/
inductive RunStep where
  | readIndexStep
  | expectedScanStep
  | globScanStep
  | filterStep
  | organizeStep
  | writeLogStep
  | writeOutputStep (key : DateKey)
  | appendIndexStep
deriving DecidableEq

/-- Embedding of the body of `run` (`scraper.py` lines 76-84) as the
sequence of steps it attempts, given the date keys of the organized map:
read the index, scan expected locations, glob, filter, organize, then
`generate_output` (which writes the run log first, `scraper.py` lines
163-167, then one output file per organized date), and finally
`update_index`. -/
def run_steps (organizedKeys : List DateKey) : List RunStep :=
  [RunStep.readIndexStep, RunStep.expectedScanStep, RunStep.globScanStep,
   RunStep.filterStep, RunStep.organizeStep, RunStep.writeLogStep]
    ++ organizedKeys.map RunStep.writeOutputStep
    ++ [RunStep.appendIndexStep]

/-- The steps a run actually performs under a success oracle `ok`: the body
has no exception handling, so the first failing step raises and aborts the
run, and the performed steps are the longest all-successful front segment
of the step sequence. -/
def run_performed (ok : RunStep → Bool) (steps : List RunStep) : List RunStep :=
  steps.takeWhile ok

/-- C3: ordering invariant of a run.  In every execution (every success
oracle and every organized map), if the index-append step was performed —
it sits at position `i` of the performed-step sequence — then the run-log
write and every organized date's output write were performed strictly
before it.  Contrapositive: when any output write fails, that write is not
among the performed steps, so the index append cannot have been performed
and no sheet is recorded as processed. -/
theorem run_append_after_outputs (ok : RunStep → Bool) (keys : List DateKey)
    (i : Nat)
    (hi : (run_performed ok (run_steps keys))[i]? = some RunStep.appendIndexStep) :
    RunStep.writeLogStep ∈ (run_performed ok (run_steps keys)).take i
      ∧ ∀ k ∈ keys,
          RunStep.writeOutputStep k ∈ (run_performed ok (run_steps keys)).take i := by
  set L := run_steps keys with hL
  set t := run_performed ok L with ht
  set X := ([RunStep.readIndexStep, RunStep.expectedScanStep, RunStep.globScanStep,
    RunStep.filterStep, RunStep.organizeStep, RunStep.writeLogStep] : List RunStep)
    ++ keys.map RunStep.writeOutputStep with hX
  have hLX : L = X ++ [RunStep.appendIndexStep] := by
    rw [hL, hX, run_steps, List.append_assoc]
  have hnotinX : RunStep.appendIndexStep ∉ X := by
    rw [hX]
    intro hmem
    rcases List.mem_append.mp hmem with h | h
    · simp at h
    · obtain ⟨k, _, hk⟩ := List.mem_map.mp h
      cases hk
  have htd : t ++ L.dropWhile ok = L := by
    rw [ht, run_performed]
    exact List.takeWhile_append_dropWhile ok L
  have hilt : i < t.length := (List.getElem?_eq_some.mp hi).1
  have hLi : L[i]? = some RunStep.appendIndexStep := by
    rw [← htd, List.getElem?_append_left hilt]
    exact hi
  have hiL : i < L.length := (List.getElem?_eq_some.mp hLi).1
  have hLlen : L.length = X.length + 1 := by
    rw [hLX]
    simp
  have hiX : i = X.length := by
    by_contra hne
    have hlt : i < X.length := by omega
    rw [hLX, List.getElem?_append_left hlt] at hLi
    obtain ⟨hb, hEq⟩ := List.getElem?_eq_some.mp hLi
    exact hnotinX (hEq ▸ List.getElem_mem hb)
  have htL : t = L := by
    have hlen : t.length + (L.dropWhile ok).length = L.length := by
      conv_rhs => rw [← htd]
      rw [List.length_append]
    have hdnil : L.dropWhile ok = [] :=
      List.eq_nil_of_length_eq_zero (by omega)
    rw [hdnil, List.append_nil] at htd
    exact htd
  have htake : t.take i = X := by
    rw [htL, hLX, hiX, List.take_left]
  constructor
  · rw [htake, hX]
    simp
  · intro k hk
    rw [htake, hX]
    exact List.mem_append.mpr (Or.inr (List.mem_map_of_mem RunStep.writeOutputStep hk))

/-- Witness for C3 at a concrete input: with every step succeeding and one
organized date, the index append is performed at position 7, and the log
write and that date's output write were both performed before it. -/
theorem run_append_after_outputs_witness :
    RunStep.writeLogStep ∈ (run_performed (fun _ => true) (run_steps [none])).take 7
      ∧ RunStep.writeOutputStep none
          ∈ (run_performed (fun _ => true) (run_steps [none])).take 7 :=
  ⟨(run_append_after_outputs (fun _ => true) [none] 7 (by decide)).1,
   (run_append_after_outputs (fun _ => true) [none] 7 (by decide)).2 none (by decide)⟩
